import Mathlib

/-!
Shallow embedding of `src/tools/bash.ts` from shell-exec-mcp.

The file models the two MCP tools registered by `registerBash`:

* `execute` — foreground mode (a promise resolved by the `close`/`error`
  handlers, raced against a `setTimeout` pair that sends SIGTERM and, 1000ms
  later, SIGKILL), and background mode (spawn, register a `BackgroundJob`
  in the `backgroundJobs` map, return `{jobId, pid}` immediately).
* `get_job_status` — lookup in the `backgroundJobs` map, with
  delete-on-read for completed jobs.

Node's event callbacks are modelled as explicit event lists consumed by pure
transition functions; the mutable `backgroundJobs` Map is modelled as a
function `String → Option BackgroundJob` updated pointwise.
-/

namespace ShellExec

/-- `DEFAULT_TIMEOUT = 5000` from bash.ts line 7. -/
def DEFAULT_TIMEOUT : Nat := 5000

/-- `const timeout = args.timeout ?? DEFAULT_TIMEOUT` (bash.ts line 59). -/
def resolveTimeout (argsTimeout : Option Nat) : Nat :=
  argsTimeout.getD DEFAULT_TIMEOUT

/-- The `BackgroundJob` record (bash.ts lines 10–16).  The `process` handle is
not data; it is represented by the event stream a job consumes.  `startedAt`
is a timestamp in milliseconds. -/
structure BackgroundJob where
  stdout : String
  stderr : String
  exitCode : Option Int
  startedAt : Nat
  deriving Repr, DecidableEq

/-- The job object built at spawn time (bash.ts lines 68–74): empty
accumulators, `exitCode: null`. -/
def newJob (now : Nat) : BackgroundJob :=
  { stdout := "", stderr := "", exitCode := none, startedAt := now }

/-- Events delivered to a background job's handlers (bash.ts lines 76–91):
`data` on stdout, `data` on stderr, `close(code)` (with `code` nullable),
and `error(err)`. -/
inductive JobEvent where
  | outData (s : String)
  | errData (s : String)
  | closeEv (code : Option Int)
  | errorEv (msg : String)
  deriving Repr, DecidableEq

/-- One background-job event handler step, exactly as the four callbacks
registered in bash.ts lines 76–91:
stdout `data` appends to `job.stdout`; stderr `data` appends to `job.stderr`;
`close` sets `job.exitCode = code ?? 1`; `error` appends
`"\nProcess error: " + err.message` to `job.stderr` and sets
`job.exitCode = 1`. -/
def handleEvent (job : BackgroundJob) : JobEvent → BackgroundJob
  | .outData s => { job with stdout := job.stdout ++ s }
  | .errData s => { job with stderr := job.stderr ++ s }
  | .closeEv code => { job with exitCode := some (code.getD 1) }
  | .errorEv msg =>
      { job with stderr := job.stderr ++ "\nProcess error: " ++ msg,
                 exitCode := some 1 }

/-- Run a list of events through the job's handlers in order. -/
def runEvents (job : BackgroundJob) : List JobEvent → BackgroundJob
  | [] => job
  | e :: rest => runEvents (handleEvent job e) rest

/-- Terminal events: `close` or `error` — the events that set `exitCode`. -/
def isTerminalEv : JobEvent → Bool
  | .closeEv _ => true
  | .errorEv _ => true
  | _ => false

/-- The `close` events only. -/
def isCloseEv : JobEvent → Bool
  | .closeEv _ => true
  | _ => false

/-- Node stream/process event ordering for the events this code subscribes
to: all `data` events are delivered before the process's terminal event, and
after the first terminal event only `close` may still fire (Node emits
`close` after `error` when the child failed to spawn). -/
def validTail : List JobEvent → Bool
  | [] => true
  | e :: rest => if isTerminalEv e then rest.all isCloseEv else validTail rest

/-- The `backgroundJobs` Map (bash.ts line 18), as a pointwise-updated
function. -/
def JobTable := String → Option BackgroundJob

/-- Map with no entries. -/
def JobTable.empty : JobTable := fun _ => none

/-- `backgroundJobs.set(jobId, job)`. -/
def JobTable.set (t : JobTable) (id : String) (job : BackgroundJob) : JobTable :=
  fun k => if k = id then some job else t k

/-- `backgroundJobs.delete(jobId)`. -/
def JobTable.del (t : JobTable) (id : String) : JobTable :=
  fun k => if k = id then none else t k

/-- Payload of `jsonResult` in the `get_job_status` handler
(bash.ts lines 178–183). -/
structure StatusResult where
  stdout : String
  stderr : String
  exitCode : Option Int
  running : Bool
  deriving Repr, DecidableEq

/-- The `get_job_status` handler (bash.ts lines 165–184): look the id up in
`backgroundJobs`; throw `Job not found: <id>` when absent; compute
`running = (job.exitCode === null)`; when not running, delete the entry as
part of the same read; return the snapshot.  The updated table is returned
alongside the result. -/
def getJobStatus (t : JobTable) (jobId : String) :
    Except String (StatusResult × JobTable) :=
  match t jobId with
  | none => .error ("Job not found: " ++ jobId)
  | some job =>
      let running := job.exitCode.isNone
      let t' := if running then t else t.del jobId
      .ok ({ stdout := job.stdout, stderr := job.stderr,
             exitCode := job.exitCode, running := running }, t')

/-- `n` successive `get_job_status` calls for the same id, threading the
table; `none` when any call throws. -/
def pollRepeat (t : JobTable) (jobId : String) :
    Nat → Option (List StatusResult × JobTable)
  | 0 => some ([], t)
  | n + 1 =>
      match getJobStatus t jobId with
      | .error _ => none
      | .ok (r, t') =>
          match pollRepeat t' jobId n with
          | none => none
          | some (rs, t'') => some (r :: rs, t'')

/-- Stream `data` events of a background job (neither `close` nor `error`). -/
def isJobDataEv : JobEvent → Bool
  | .outData _ => true
  | .errData _ => true
  | _ => false

/-- Everything the background command wrote to stdout, in order. -/
def jobOutConcat : List JobEvent → String
  | [] => ""
  | .outData s :: rest => s ++ jobOutConcat rest
  | _ :: rest => jobOutConcat rest

/-- Everything the background command wrote to stderr, in order. -/
def jobErrConcat : List JobEvent → String
  | [] => ""
  | .errData s :: rest => s ++ jobErrConcat rest
  | _ :: rest => jobErrConcat rest

/-- Number of events at which the job's exit code goes from absent to
present. -/
def transitionCount (job : BackgroundJob) : List JobEvent → Nat
  | [] => 0
  | e :: rest =>
      (if job.exitCode.isNone && (handleEvent job e).exitCode.isSome then 1
       else 0)
      + transitionCount (handleEvent job e) rest

/-- Grace period before SIGKILL: the literal `1000` in
`setTimeout(() => child.kill('SIGKILL'), 1000)` (bash.ts line 115). -/
def GRACE_MS : Nat := 1000

/-- The stderr note appended on timeout (bash.ts line 130):
`"\nProcess timed out after " + timeout + "ms"`. -/
def timeoutNote (timeout : Nat) : String :=
  "\nProcess timed out after " ++ toString timeout ++ "ms"

/-- Payload of `jsonResult` for a foreground `execute`
(bash.ts lines 133–137 and 142–146). -/
structure FgResult where
  stdout : String
  stderr : String
  exitCode : Int
  deriving Repr, DecidableEq

/-- State of one foreground `execute` call (bash.ts lines 102–148): the local
`stdout`/`stderr`/`timedOut` variables, whether the outer timeout timer is
still pending (set at line 111, cleared by `clearTimeout` at 127/141 or by
firing), whether the inner SIGKILL timer is pending, the delay it was
scheduled with, which signals `child.kill` has been given, and the promise's
resolution (`resolve` keeps its first value). -/
structure FgState where
  stdout : String
  stderr : String
  timedOut : Bool
  mainTimerPending : Bool
  killTimerPending : Bool
  killTimerDelay : Option Nat
  sigtermSent : Bool
  sigkillSent : Bool
  resolved : Option FgResult
  deriving Repr, DecidableEq

/-- State right after `spawn` and `setTimeout(..., timeout)`: the outer timer
is pending, nothing else has happened. -/
def fgInit : FgState :=
  { stdout := "", stderr := "", timedOut := false,
    mainTimerPending := true, killTimerPending := false,
    killTimerDelay := none, sigtermSent := false, sigkillSent := false,
    resolved := none }

/-- Events that can reach the foreground call's callbacks: the outer timeout
timer firing, the inner SIGKILL timer firing, stream `data`, `close(code)`,
and `error(err)`. -/
inductive FgEvent where
  | timerFire
  | killTimerFire
  | outData (s : String)
  | errData (s : String)
  | closeEv (code : Option Int)
  | errorEv (msg : String)
  deriving Repr, DecidableEq

/-- One step of the foreground call, exactly as the callbacks in
bash.ts lines 111–147:

* the outer timer (only if still pending) sets `timedOut = true`, sends
  SIGTERM, and schedules SIGKILL after `GRACE_MS`;
* the inner timer (only if still pending — it is never cleared) sends
  SIGKILL;
* `data` appends to the accumulators;
* `close` clears the outer timer, appends the timeout note when `timedOut`,
  and resolves with `exitCode = timedOut ? 124 : (code ?? 1)`;
* `error` clears the outer timer and resolves with the error note appended
  to stderr and `exitCode = 1`.

A promise keeps the first value given to `resolve`. -/
def fgStep (timeout : Nat) (st : FgState) : FgEvent → FgState
  | .timerFire =>
      if st.mainTimerPending then
        { st with timedOut := true, sigtermSent := true,
                  mainTimerPending := false,
                  killTimerPending := true, killTimerDelay := some GRACE_MS }
      else st
  | .killTimerFire =>
      if st.killTimerPending then
        { st with sigkillSent := true, killTimerPending := false }
      else st
  | .outData s => { st with stdout := st.stdout ++ s }
  | .errData s => { st with stderr := st.stderr ++ s }
  | .closeEv code =>
      let stderr1 :=
        if st.timedOut then st.stderr ++ timeoutNote timeout else st.stderr
      { st with mainTimerPending := false, stderr := stderr1,
                resolved := some (st.resolved.getD
                  { stdout := st.stdout, stderr := stderr1,
                    exitCode := if st.timedOut then 124 else code.getD 1 }) }
  | .errorEv msg =>
      let stderr1 := st.stderr ++ "\nProcess error: " ++ msg
      { st with mainTimerPending := false, stderr := stderr1,
                resolved := some (st.resolved.getD
                  { stdout := st.stdout, stderr := stderr1, exitCode := 1 }) }

/-- Run a list of foreground events in order. -/
def fgRun (timeout : Nat) (st : FgState) : List FgEvent → FgState
  | [] => st
  | e :: rest => fgRun timeout (fgStep timeout st e) rest

/-- Stream `data` events (either stream). -/
def isDataEv : FgEvent → Bool
  | .outData _ => true
  | .errData _ => true
  | _ => false

/-- Everything the command wrote to stdout, in order. -/
def outConcat : List FgEvent → String
  | [] => ""
  | .outData s :: rest => s ++ outConcat rest
  | _ :: rest => outConcat rest

/-- Everything the command wrote to stderr, in order. -/
def errConcat : List FgEvent → String
  | [] => ""
  | .errData s :: rest => s ++ errConcat rest
  | _ :: rest => errConcat rest

/-- `Math.random().toString(36).substring(2, 10)` (bash.ts lines 20–22):
`randTok` stands for the string `Math.random().toString(36)` — `"0"` when the
draw is exactly 0, otherwise `"0." ++ digits` — and `substring(2, 10)` keeps
characters at indices 2 through 9. -/
def generateJobId (randTok : String) : String :=
  String.mk ((randTok.data.drop 2).take 8)

/-- Result of `execute` with `background: true` (bash.ts lines 95–98):
`pid` is `child.pid ?? 0`. -/
structure BgResult where
  jobId : String
  pid : Nat
  deriving Repr, DecidableEq

/-- The background branch of the `execute` handler (bash.ts lines 62–98):
generate the id, spawn (the spawn's outcome is summarized by `childPid`,
`undefined` when the shell could not be started), register a fresh
`BackgroundJob` in the table, and return `{jobId, pid: child.pid ?? 0}`
immediately — before any job event has been consumed. -/
def bgExecute (t : JobTable) (randTok : String) (childPid : Option Nat)
    (now : Nat) : BgResult × JobTable :=
  let jobId := generateJobId randTok
  ({ jobId := jobId, pid := childPid.getD 0 }, t.set jobId (newJob now))

/-- A completed job, as `get_job_status` would find it after the scenario
`echo done &` has run to completion. -/
def doneJob : BackgroundJob :=
  { stdout := "done\n", stderr := "", exitCode := some 0, startedAt := 0 }

/-- A table holding `doneJob` under id `"j1"`. -/
def doneTable : JobTable := JobTable.empty.set "j1" doneJob

/-- A table holding a still-running job under id `"j2"`. -/
def runningTable : JobTable := JobTable.empty.set "j2" (newJob 7)

/-! ### Helper lemmas about background-job event processing -/

theorem runEvents_append (t1 t2 : List JobEvent) :
    ∀ j : BackgroundJob, runEvents j (t1 ++ t2) = runEvents (runEvents j t1) t2 := by
  induction t1 with
  | nil => intro j; rfl
  | cons e rest ih =>
      intro j
      simp only [List.cons_append, runEvents]
      exact ih _

theorem handleEvent_isSome (j : BackgroundJob) (e : JobEvent)
    (h : j.exitCode.isSome = true) : (handleEvent j e).exitCode.isSome = true := by
  cases e <;> simp_all [handleEvent]

theorem runEvents_isSome (tr : List JobEvent) :
    ∀ j : BackgroundJob, j.exitCode.isSome = true →
      (runEvents j tr).exitCode.isSome = true := by
  induction tr with
  | nil => intro j h; exact h
  | cons e rest ih => intro j h; exact ih _ (handleEvent_isSome j e h)

theorem runEvents_no_terminal (tr : List JobEvent) :
    ∀ j : BackgroundJob, tr.any isTerminalEv = false →
      (runEvents j tr).exitCode = j.exitCode := by
  induction tr with
  | nil => intro j _; rfl
  | cons e rest ih =>
      intro j h
      rw [List.any_cons, Bool.or_eq_false_iff] at h
      cases e with
      | outData s => exact ih _ h.2
      | errData s => exact ih _ h.2
      | closeEv c => simp [isTerminalEv] at h
      | errorEv m => simp [isTerminalEv] at h

theorem transitionCount_of_isSome (tr : List JobEvent) :
    ∀ j : BackgroundJob, j.exitCode.isSome = true → transitionCount j tr = 0 := by
  induction tr with
  | nil => intro j _; rfl
  | cons e rest ih =>
      intro j h
      have hnone : j.exitCode.isNone = false := by
        cases hx : j.exitCode <;> simp_all
      simp only [transitionCount, hnone, Bool.false_and, if_neg Bool.false_ne_true]
      rw [ih _ (handleEvent_isSome j e h)]

theorem transitionCount_of_none (tr : List JobEvent) :
    ∀ j : BackgroundJob, j.exitCode = none →
      transitionCount j tr = if tr.any isTerminalEv then 1 else 0 := by
  induction tr with
  | nil => intro j _; rfl
  | cons e rest ih =>
      intro j h
      cases e with
      | outData s =>
          have hkeep : (handleEvent j (.outData s)).exitCode = none := h
          simp [transitionCount, List.any_cons, isTerminalEv, h, hkeep, ih _ hkeep]
      | errData s =>
          have hkeep : (handleEvent j (.errData s)).exitCode = none := h
          simp [transitionCount, List.any_cons, isTerminalEv, h, hkeep, ih _ hkeep]
      | closeEv c =>
          have hset : (handleEvent j (.closeEv c)).exitCode.isSome = true := by
            simp [handleEvent]
          simp [transitionCount, List.any_cons, isTerminalEv, h, hset,
                transitionCount_of_isSome rest _ hset]
      | errorEv m =>
          have hset : (handleEvent j (.errorEv m)).exitCode.isSome = true := by
            simp [handleEvent]
          simp [transitionCount, List.any_cons, isTerminalEv, h, hset,
                transitionCount_of_isSome rest _ hset]

theorem validTail_append (t1 t2 : List JobEvent) :
    validTail (t1 ++ t2) = true → t1.any isTerminalEv = true →
      t2.all isCloseEv = true := by
  induction t1 with
  | nil => intro _ hany; simp at hany
  | cons e rest ih =>
      intro hval hany
      rw [List.cons_append] at hval
      unfold validTail at hval
      rw [List.any_cons] at hany
      cases hterm : isTerminalEv e with
      | true =>
          rw [hterm, if_pos rfl, List.all_append, Bool.and_eq_true] at hval
          exact hval.2
      | false =>
          rw [hterm, Bool.false_or] at hany
          rw [hterm] at hval
          simp only [if_neg Bool.false_ne_true] at hval
          exact ih hval hany

theorem runEvents_closes_freeze (tr : List JobEvent) :
    ∀ j : BackgroundJob, tr.all isCloseEv = true →
      (runEvents j tr).stdout = j.stdout ∧ (runEvents j tr).stderr = j.stderr := by
  induction tr with
  | nil => intro j _; exact ⟨rfl, rfl⟩
  | cons e rest ih =>
      intro j hall
      rw [List.all_cons, Bool.and_eq_true] at hall
      cases e with
      | outData s => simp [isCloseEv] at hall
      | errData s => simp [isCloseEv] at hall
      | errorEv m => simp [isCloseEv] at hall
      | closeEv c =>
          have := ih (handleEvent j (.closeEv c)) hall.2
          simpa [runEvents, handleEvent] using this

theorem runEvents_data (jds : List JobEvent) :
    ∀ j : BackgroundJob, jds.all isJobDataEv = true →
      runEvents j jds =
        { j with stdout := j.stdout ++ jobOutConcat jds,
                 stderr := j.stderr ++ jobErrConcat jds } := by
  induction jds with
  | nil =>
      intro j _
      cases j
      simp [runEvents, jobOutConcat, jobErrConcat, String.append_empty]
  | cons e rest ih =>
      intro j hall
      rw [List.all_cons, Bool.and_eq_true] at hall
      cases e with
      | closeEv c => simp [isJobDataEv] at hall
      | errorEv m => simp [isJobDataEv] at hall
      | outData s =>
          simp only [runEvents, handleEvent]
          rw [ih _ hall.2]
          cases j
          simp [jobOutConcat, jobErrConcat, String.append_assoc]
      | errData s =>
          simp only [runEvents, handleEvent]
          rw [ih _ hall.2]
          cases j
          simp [jobOutConcat, jobErrConcat, String.append_assoc]

/-! ### Helper lemmas about the foreground execute machine -/

theorem fgRun_append (timeout : Nat) (t1 t2 : List FgEvent) :
    ∀ st : FgState,
      fgRun timeout st (t1 ++ t2) = fgRun timeout (fgRun timeout st t1) t2 := by
  induction t1 with
  | nil => intro st; rfl
  | cons e rest ih =>
      intro st
      simp only [List.cons_append, fgRun]
      exact ih _

theorem fgRun_data (timeout : Nat) (ds : List FgEvent) :
    ∀ st : FgState, ds.all isDataEv = true →
      fgRun timeout st ds =
        { st with stdout := st.stdout ++ outConcat ds,
                  stderr := st.stderr ++ errConcat ds } := by
  induction ds with
  | nil =>
      intro st _
      cases st
      simp [fgRun, outConcat, errConcat, String.append_empty]
  | cons e rest ih =>
      intro st hall
      rw [List.all_cons, Bool.and_eq_true] at hall
      cases e with
      | timerFire => simp [isDataEv] at hall
      | killTimerFire => simp [isDataEv] at hall
      | closeEv c => simp [isDataEv] at hall
      | errorEv m => simp [isDataEv] at hall
      | outData s =>
          simp only [fgRun, fgStep]
          rw [ih _ hall.2]
          cases st
          simp [outConcat, errConcat, String.append_assoc]
      | errData s =>
          simp only [fgRun, fgStep]
          rw [ih _ hall.2]
          cases st
          simp [outConcat, errConcat, String.append_assoc]

theorem fgRun_sealed (timeout : Nat) (tail : List FgEvent) :
    ∀ (st : FgState) (r : FgResult),
      st.mainTimerPending = false → st.killTimerPending = false →
      st.resolved = some r →
      (fgRun timeout st tail).resolved = some r ∧
      (fgRun timeout st tail).sigtermSent = st.sigtermSent ∧
      (fgRun timeout st tail).sigkillSent = st.sigkillSent := by
  induction tail with
  | nil => intro st r _ _ h3; exact ⟨h3, rfl, rfl⟩
  | cons e rest ih =>
      intro st r h1 h2 h3
      cases e with
      | timerFire =>
          simp only [fgRun, fgStep, h1, if_neg Bool.false_ne_true]
          exact ih st r h1 h2 h3
      | killTimerFire =>
          simp only [fgRun, fgStep, h2, if_neg Bool.false_ne_true]
          exact ih st r h1 h2 h3
      | outData s =>
          simp only [fgRun, fgStep]
          exact ih _ r h1 h2 h3
      | errData s =>
          simp only [fgRun, fgStep]
          exact ih _ r h1 h2 h3
      | closeEv c =>
          have hmt : (fgStep timeout st (.closeEv c)).mainTimerPending = false := by
            simp [fgStep]
          have hkt : (fgStep timeout st (.closeEv c)).killTimerPending = false := by
            simp [fgStep, h2]
          have hres : (fgStep timeout st (.closeEv c)).resolved = some r := by
            simp [fgStep, h3]
          have hterm : (fgStep timeout st (.closeEv c)).sigtermSent = st.sigtermSent := by
            simp [fgStep]
          have hkill : (fgStep timeout st (.closeEv c)).sigkillSent = st.sigkillSent := by
            simp [fgStep]
          have h := ih _ r hmt hkt hres
          simp only [fgRun]
          exact ⟨h.1, h.2.1.trans hterm, h.2.2.trans hkill⟩
      | errorEv m =>
          have hmt : (fgStep timeout st (.errorEv m)).mainTimerPending = false := by
            simp [fgStep]
          have hkt : (fgStep timeout st (.errorEv m)).killTimerPending = false := by
            simp [fgStep, h2]
          have hres : (fgStep timeout st (.errorEv m)).resolved = some r := by
            simp [fgStep, h3]
          have hterm : (fgStep timeout st (.errorEv m)).sigtermSent = st.sigtermSent := by
            simp [fgStep]
          have hkill : (fgStep timeout st (.errorEv m)).sigkillSent = st.sigkillSent := by
            simp [fgStep]
          have h := ih _ r hmt hkt hres
          simp only [fgRun]
          exact ⟨h.1, h.2.1.trans hterm, h.2.2.trans hkill⟩

/-! ### Claim theorems -/

/-- C1: once a background job's exit code has been set, the first
`get_job_status` call with its id returns the full accumulated
stdout/stderr, `running: false`, and that exit code, and deletes the job
from the table in the same read; a second call with the same id — and any
call with an id absent from the table — fails with the job-not-found
error. -/
theorem get_job_status_completed_read_once (t : JobTable) (id id0 : String)
    (job : BackgroundJob) (c : Int)
    (hlook : t id = some job) (hdone : job.exitCode = some c)
    (hmiss : t id0 = none) :
    getJobStatus t id =
      .ok ({ stdout := job.stdout, stderr := job.stderr,
             exitCode := some c, running := false }, t.del id) ∧
    (t.del id) id = none ∧
    getJobStatus (t.del id) id = .error ("Job not found: " ++ id) ∧
    getJobStatus t id0 = .error ("Job not found: " ++ id0) := by
  have hdel : (t.del id) id = none := by simp [JobTable.del]
  refine ⟨?_, hdel, ?_, ?_⟩
  · simp [getJobStatus, hlook, hdone]
  · simp [getJobStatus, hdel]
  · simp [getJobStatus, hmiss]

/-- Witness for C1 on the completed job `doneJob` stored under `"j1"`. -/
theorem get_job_status_completed_read_once_witness :
    getJobStatus doneTable "j1" =
      .ok ({ stdout := doneJob.stdout, stderr := doneJob.stderr,
             exitCode := some 0, running := false }, doneTable.del "j1") ∧
    (doneTable.del "j1") "j1" = none ∧
    getJobStatus (doneTable.del "j1") "j1" = .error ("Job not found: " ++ "j1") ∧
    getJobStatus doneTable "nonexistent" =
      .error ("Job not found: " ++ "nonexistent") :=
  get_job_status_completed_read_once doneTable "j1" "nonexistent" doneJob 0
    rfl rfl rfl

/-- C4: over a background job's lifetime (any event trace obeying Node's
ordering — `data` before the terminal event, only `close` after the first
terminal event), the exit code goes from absent to present exactly once, is
never reset to absent, and the accumulators do not change after it is
present. -/
theorem background_job_completes_once (now : Nat) (t1 t2 : List JobEvent)
    (hval : validTail (t1 ++ t2) = true)
    (hsome : (runEvents (newJob now) t1).exitCode.isSome = true) :
    transitionCount (newJob now) (t1 ++ t2) = 1 ∧
    (runEvents (newJob now) (t1 ++ t2)).exitCode.isSome = true ∧
    (runEvents (newJob now) (t1 ++ t2)).stdout
      = (runEvents (newJob now) t1).stdout ∧
    (runEvents (newJob now) (t1 ++ t2)).stderr
      = (runEvents (newJob now) t1).stderr := by
  have hany : t1.any isTerminalEv = true := by
    cases hx : t1.any isTerminalEv with
    | true => rfl
    | false =>
        have := runEvents_no_terminal t1 (newJob now) hx
        rw [this] at hsome
        simp [newJob] at hsome
  have hclose : t2.all isCloseEv = true := validTail_append t1 t2 hval hany
  have happ := runEvents_append t1 t2 (newJob now)
  have hfreeze := runEvents_closes_freeze t2 (runEvents (newJob now) t1) hclose
  have hcount : transitionCount (newJob now) (t1 ++ t2) = 1 := by
    rw [transitionCount_of_none (t1 ++ t2) (newJob now) rfl]
    simp [List.any_append, hany]
  refine ⟨hcount, ?_, ?_, ?_⟩
  · rw [happ]; exact runEvents_isSome t2 _ hsome
  · rw [happ]; exact hfreeze.1
  · rw [happ]; exact hfreeze.2

/-- Witness for C4 on the spawn-failure trace `error` then `close(null)`. -/
theorem background_job_completes_once_witness :
    transitionCount (newJob 0)
      ([.errorEv "spawn bash ENOENT"] ++ [.closeEv none]) = 1 ∧
    (runEvents (newJob 0)
      ([.errorEv "spawn bash ENOENT"] ++ [.closeEv none])).exitCode.isSome = true ∧
    (runEvents (newJob 0)
      ([.errorEv "spawn bash ENOENT"] ++ [.closeEv none])).stdout
      = (runEvents (newJob 0) [.errorEv "spawn bash ENOENT"]).stdout ∧
    (runEvents (newJob 0)
      ([.errorEv "spawn bash ENOENT"] ++ [.closeEv none])).stderr
      = (runEvents (newJob 0) [.errorEv "spawn bash ENOENT"]).stderr :=
  background_job_completes_once 0 [.errorEv "spawn bash ENOENT"]
    [.closeEv none] (by decide) (by decide)

/-- C6: while a background job's exit code is still absent, any number of
`get_job_status` calls with its id each return `running: true` with exit
code absent, and leave the table unchanged (the job stays reachable by the
same id). -/
theorem get_job_status_running_idempotent (t : JobTable) (id : String)
    (job : BackgroundJob) (hlook : t id = some job)
    (hrun : job.exitCode = none) (n : Nat) :
    pollRepeat t id n =
      some (List.replicate n
        { stdout := job.stdout, stderr := job.stderr,
          exitCode := none, running := true }, t) := by
  have hstat : getJobStatus t id =
      .ok ({ stdout := job.stdout, stderr := job.stderr,
             exitCode := none, running := true }, t) := by
    simp [getJobStatus, hlook, hrun]
  induction n with
  | zero => simp [pollRepeat]
  | succ k ih => simp [pollRepeat, hstat, ih, List.replicate_succ]

/-- Witness for C6: three polls of the running job under `"j2"`. -/
theorem get_job_status_running_idempotent_witness :
    pollRepeat runningTable "j2" 3 =
      some (List.replicate 3
        { stdout := (newJob 7).stdout, stderr := (newJob 7).stderr,
          exitCode := none, running := true }, runningTable) :=
  get_job_status_running_idempotent runningTable "j2" (newJob 7) rfl rfl 3

/-- C9: a foreground `execute` call without a `timeout` argument uses a
deadline of exactly 5000ms, and a caller-specified `timeout` is used
verbatim. -/
theorem execute_default_timeout_5000 :
    DEFAULT_TIMEOUT = 5000 ∧ resolveTimeout none = 5000 ∧
    ∀ t : Nat, resolveTimeout (some t) = t :=
  ⟨rfl, rfl, fun _ => rfl⟩

/-- C10: a background job whose `close` event delivers a null exit code
(signal-terminated process) records the sentinel exit code 1 — the same
value the `error` handler records for spawn/runtime failures — so both
cases produce the same exit code and `running: false` in the status
result. -/
theorem background_signal_exit_sentinel (job : BackgroundJob) (msg : String)
    (id : String) :
    (handleEvent job (.closeEv none)).exitCode = some 1 ∧
    (handleEvent job (.errorEv msg)).exitCode = some 1 ∧
    (handleEvent job (.closeEv none)).exitCode
      = (handleEvent job (.errorEv msg)).exitCode ∧
    (getJobStatus (JobTable.empty.set id (handleEvent job (.closeEv none))) id).map
        (fun p => (p.fst.exitCode, p.fst.running))
      = .ok (some 1, false) ∧
    (getJobStatus (JobTable.empty.set id (handleEvent job (.errorEv msg))) id).map
        (fun p => (p.fst.exitCode, p.fst.running))
      = .ok (some 1, false) := by
  refine ⟨rfl, rfl, rfl, ?_, ?_⟩ <;>
    simp [getJobStatus, JobTable.set, handleEvent, Except.map]

/-- C3: a foreground command that exits normally before the deadline (its
`close` event, with a real exit status, arrives with the timeout timer never
having fired) reports exactly that exit status, and stdout/stderr equal to
exactly the bytes the command wrote to each stream. -/
theorem execute_foreground_normal_exit (timeout : Nat) (ds : List FgEvent)
    (c : Int) (hds : ds.all isDataEv = true) :
    (fgRun timeout fgInit (ds ++ [.closeEv (some c)])).resolved =
      some { stdout := outConcat ds, stderr := errConcat ds, exitCode := c } := by
  rw [fgRun_append, fgRun_data timeout ds fgInit hds]
  simp [fgRun, fgStep, fgInit, String.empty_append]

/-- Witness for C3: the spec's `echo hello` scenario, plus an `exit 42`
style explicit code. -/
theorem execute_foreground_normal_exit_witness :
    (fgRun 5000 fgInit ([.outData "hello\n"] ++ [.closeEv (some 42)])).resolved =
      some { stdout := outConcat [.outData "hello\n"],
             stderr := errConcat [.outData "hello\n"], exitCode := 42 } :=
  execute_foreground_normal_exit 5000 [.outData "hello\n"] 42 (by decide)

/-- C2: when the foreground process is still alive at the deadline, the
handler sends SIGTERM, schedules SIGKILL after the fixed 1000ms grace
period and (the process still being alive when it elapses) sends it, and
the result reports exit code 124 with a note containing "timed out"
appended to the accumulated stderr. -/
theorem execute_foreground_timeout_escalation (timeout : Nat)
    (ds : List FgEvent) (code : Option Int) (hds : ds.all isDataEv = true) :
    (fgRun timeout fgInit
      (ds ++ [.timerFire, .killTimerFire, .closeEv code])).sigtermSent = true ∧
    (fgRun timeout fgInit
      (ds ++ [.timerFire, .killTimerFire, .closeEv code])).sigkillSent = true ∧
    (fgRun timeout fgInit
      (ds ++ [.timerFire, .killTimerFire, .closeEv code])).killTimerDelay
      = some 1000 ∧
    (fgRun timeout fgInit
      (ds ++ [.timerFire, .killTimerFire, .closeEv code])).resolved =
      some { stdout := outConcat ds,
             stderr := errConcat ds ++ timeoutNote timeout, exitCode := 124 } ∧
    ∃ pre post,
      errConcat ds ++ timeoutNote timeout = pre ++ ("timed out" ++ post) := by
  rw [fgRun_append, fgRun_data timeout ds fgInit hds]
  refine ⟨?_, ?_, ?_, ?_, ?_⟩
  · simp [fgRun, fgStep, fgInit]
  · simp [fgRun, fgStep, fgInit]
  · simp [fgRun, fgStep, fgInit, GRACE_MS]
  · simp [fgRun, fgStep, fgInit, String.empty_append]
  · refine ⟨errConcat ds ++ "\nProcess ",
            " after " ++ toString timeout ++ "ms", ?_⟩
    have h36 : ("\nProcess timed out after " : String)
        = "\nProcess " ++ ("timed out" ++ " after ") := rfl
    simp only [timeoutNote, h36, String.append_assoc]

/-- Witness for C2: `sleep 10` with `timeout: 100` — no output, timer and
grace period elapse, SIGKILL-terminated close. -/
theorem execute_foreground_timeout_escalation_witness :
    (fgRun 100 fgInit
      ([] ++ [.timerFire, .killTimerFire, .closeEv none])).sigtermSent = true ∧
    (fgRun 100 fgInit
      ([] ++ [.timerFire, .killTimerFire, .closeEv none])).sigkillSent = true ∧
    (fgRun 100 fgInit
      ([] ++ [.timerFire, .killTimerFire, .closeEv none])).killTimerDelay
      = some 1000 ∧
    (fgRun 100 fgInit
      ([] ++ [.timerFire, .killTimerFire, .closeEv none])).resolved =
      some { stdout := outConcat [],
             stderr := errConcat [] ++ timeoutNote 100, exitCode := 124 } ∧
    ∃ pre post,
      errConcat [] ++ timeoutNote 100 = pre ++ ("timed out" ++ post) :=
  execute_foreground_timeout_escalation 100 [] none (by decide)

/-- C5 counterexample: the process receives SIGTERM at the deadline and
exits on its own (natural code 0) during the grace period; the claim says
the pending termination actions are cancelled and the natural exit code is
reported, but the code reports 124 and leaves the SIGKILL timer pending. -/
theorem execute_foreground_grace_exit_counterexample :
    (fgRun 5000 fgInit [.timerFire, .closeEv (some 0)]).resolved =
      some { stdout := "", stderr := timeoutNote 5000, exitCode := 124 } ∧
    (fgRun 5000 fgInit [.timerFire, .closeEv (some 0)]).killTimerPending
      = true ∧
    (124 : Int) ≠ 0 := by
  refine ⟨by decide, by decide, by decide⟩

/-- C5 (amended): only a process that exits before the deadline — its
`close` arriving while the timeout timer is still pending — has the pending
timer cancelled and its natural exit code reported unmodified; whatever
events follow (including stray timer fires), the result keeps the natural
exit code and no signal is ever sent.  A process exiting during the grace
period is instead reported as 124 with the SIGKILL timer left pending. -/
theorem execute_foreground_early_exit (timeout : Nat) (ds : List FgEvent)
    (c : Int) (tail : List FgEvent) (hds : ds.all isDataEv = true) :
    (fgRun timeout fgInit (ds ++ [.closeEv (some c)])).mainTimerPending
      = false ∧
    (fgRun timeout fgInit (ds ++ .closeEv (some c) :: tail)).resolved =
      some { stdout := outConcat ds, stderr := errConcat ds, exitCode := c } ∧
    (fgRun timeout fgInit (ds ++ .closeEv (some c) :: tail)).sigtermSent
      = false ∧
    (fgRun timeout fgInit (ds ++ .closeEv (some c) :: tail)).sigkillSent
      = false := by
  have hst1 : fgRun timeout fgInit (ds ++ [.closeEv (some c)]) =
      { stdout := outConcat ds, stderr := errConcat ds, timedOut := false,
        mainTimerPending := false, killTimerPending := false,
        killTimerDelay := none, sigtermSent := false, sigkillSent := false,
        resolved := some { stdout := outConcat ds, stderr := errConcat ds,
                           exitCode := c } } := by
    rw [fgRun_append, fgRun_data timeout ds fgInit hds]
    simp [fgRun, fgStep, fgInit, String.empty_append]
  have hsplit : ds ++ FgEvent.closeEv (some c) :: tail
      = (ds ++ [FgEvent.closeEv (some c)]) ++ tail := by
    rw [List.append_assoc]
    rfl
  have hseal := fgRun_sealed timeout tail
      (fgRun timeout fgInit (ds ++ [FgEvent.closeEv (some c)]))
      { stdout := outConcat ds, stderr := errConcat ds, exitCode := c }
      (by rw [hst1]) (by rw [hst1]) (by rw [hst1])
  refine ⟨by rw [hst1], ?_, ?_, ?_⟩
  · rw [hsplit, fgRun_append]
    exact hseal.1
  · rw [hsplit, fgRun_append, hseal.2.1, hst1]
  · rw [hsplit, fgRun_append, hseal.2.2, hst1]

/-- Witness for the amended C5: `close(3)` before the deadline, with a
stray timer-fire event afterwards. -/
theorem execute_foreground_early_exit_witness :
    (fgRun 5000 fgInit
      ([.outData "a"] ++ [.closeEv (some 3)])).mainTimerPending = false ∧
    (fgRun 5000 fgInit
      ([.outData "a"] ++ .closeEv (some 3) :: [.timerFire])).resolved =
      some { stdout := outConcat [.outData "a"],
             stderr := errConcat [.outData "a"], exitCode := 3 } ∧
    (fgRun 5000 fgInit
      ([.outData "a"] ++ .closeEv (some 3) :: [.timerFire])).sigtermSent
      = false ∧
    (fgRun 5000 fgInit
      ([.outData "a"] ++ .closeEv (some 3) :: [.timerFire])).sigkillSent
      = false :=
  execute_foreground_early_exit 5000 [.outData "a"] 3 [.timerFire] (by decide)

/-- C7 counterexample: a background execute whose spawn yields no pid
(`child.pid` undefined, shell could not be started) returns `pid = 0`,
which is not positive; and the random draw `Math.random() = 0` makes
`toString(36)` produce `"0"`, whose `substring(2, 10)` is the empty
jobId. -/
theorem execute_background_pid_counterexample :
    (bgExecute JobTable.empty "0" none 0).fst.pid = 0 ∧
    ¬ 0 < (bgExecute JobTable.empty "0" none 0).fst.pid ∧
    (bgExecute JobTable.empty "0" none 0).fst.jobId = "" := by
  refine ⟨rfl, by decide, rfl⟩

/-- C7 (amended): a background execute returns immediately — before any
process event, with the job registered under its id in the initial state —
the result `{jobId, pid}` carrying the spawn's OS pid whenever one was
produced (hence positive), `0` otherwise; `jobId` is non-empty whenever the
random token has more than two characters, which holds for every nonzero
draw of `Math.random()`. -/
theorem execute_background_immediate (t : JobTable) (randTok : String)
    (childPid : Option Nat) (now : Nat) (p : Nat)
    (htok : 2 < randTok.length) (hpid : childPid = some p) (hp : 0 < p) :
    bgExecute t randTok childPid now =
      ({ jobId := generateJobId randTok, pid := p },
        t.set (generateJobId randTok) (newJob now)) ∧
    generateJobId randTok ≠ "" ∧
    0 < (bgExecute t randTok childPid now).fst.pid ∧
    (bgExecute t randTok childPid now).snd (generateJobId randTok) =
      some (newJob now) := by
  subst hpid
  refine ⟨rfl, ?_, hp, ?_⟩
  · intro hemp
    have hlen : ((randTok.data.drop 2).take 8).length = 0 := by
      have h0 : (generateJobId randTok).length = 0 := by
        rw [hemp]
        rfl
      exact h0
    rw [List.length_take, List.length_drop] at hlen
    have hlen2 : 2 < randTok.data.length := htok
    omega
  · simp [bgExecute, JobTable.set]

/-- Witness for the amended C7 with a 10-character random token and pid
1234. -/
theorem execute_background_immediate_witness :
    bgExecute JobTable.empty "0.k72m9x4q" (some 1234) 0 =
      ({ jobId := generateJobId "0.k72m9x4q", pid := 1234 },
        JobTable.empty.set (generateJobId "0.k72m9x4q") (newJob 0)) ∧
    generateJobId "0.k72m9x4q" ≠ "" ∧
    0 < (bgExecute JobTable.empty "0.k72m9x4q" (some 1234) 0).fst.pid ∧
    (bgExecute JobTable.empty "0.k72m9x4q" (some 1234) 0).snd
      (generateJobId "0.k72m9x4q") = some (newJob 0) :=
  execute_background_immediate JobTable.empty "0.k72m9x4q" (some 1234) 0 1234
    (by decide) rfl (by decide)

/-- C8: a spawn failure is captured into the result rather than thrown — a
foreground call resolves with exit code 1 and the error text appended to
stderr; a background call's already-returned `{jobId, pid}` value is a pure
function of the spawn alone (no error can reach it), while the job records
the error text appended to its stderr and exit code 1. -/
theorem execute_spawn_failure_captured (timeout : Nat) (ds : List FgEvent)
    (msg : String) (t : JobTable) (randTok : String) (childPid : Option Nat)
    (now : Nat) (jds : List JobEvent)
    (hds : ds.all isDataEv = true) (hjds : jds.all isJobDataEv = true) :
    (fgRun timeout fgInit (ds ++ [.errorEv msg])).resolved =
      some { stdout := outConcat ds,
             stderr := errConcat ds ++ "\nProcess error: " ++ msg,
             exitCode := 1 } ∧
    (bgExecute t randTok childPid now).fst =
      { jobId := generateJobId randTok, pid := childPid.getD 0 } ∧
    (runEvents (newJob now) (jds ++ [.errorEv msg])).exitCode = some 1 ∧
    (runEvents (newJob now) (jds ++ [.errorEv msg])).stderr =
      jobErrConcat jds ++ "\nProcess error: " ++ msg := by
  refine ⟨?_, rfl, ?_, ?_⟩
  · rw [fgRun_append, fgRun_data timeout ds fgInit hds]
    simp [fgRun, fgStep, fgInit, String.empty_append, String.append_assoc]
  · rw [runEvents_append, runEvents_data jds _ hjds]
    simp [runEvents, handleEvent]
  · rw [runEvents_append, runEvents_data jds _ hjds]
    simp [runEvents, handleEvent, newJob, String.empty_append,
          String.append_assoc]

/-- Witness for C8: spawn failure `spawn bash ENOENT` for both modes. -/
theorem execute_spawn_failure_captured_witness :
    (fgRun 5000 fgInit ([.errData "e"] ++ [.errorEv "spawn bash ENOENT"])).resolved =
      some { stdout := outConcat [.errData "e"],
             stderr := errConcat [.errData "e"]
               ++ "\nProcess error: " ++ "spawn bash ENOENT",
             exitCode := 1 } ∧
    (bgExecute JobTable.empty "0.k72m9x4q" none 0).fst =
      { jobId := generateJobId "0.k72m9x4q", pid := (none : Option Nat).getD 0 } ∧
    (runEvents (newJob 0) ([] ++ [.errorEv "spawn bash ENOENT"])).exitCode
      = some 1 ∧
    (runEvents (newJob 0) ([] ++ [.errorEv "spawn bash ENOENT"])).stderr =
      jobErrConcat [] ++ "\nProcess error: " ++ "spawn bash ENOENT" :=
  execute_spawn_failure_captured 5000 [.errData "e"] "spawn bash ENOENT"
    JobTable.empty "0.k72m9x4q" none 0 [] (by decide) (by decide)

end ShellExec
